import Mathlib

/-!
Verification of the trading decision-and-order-lifecycle engine.

The Python sources are shallowly embedded: floats are modelled as rationals,
datetimes as integers (UTC timestamps) or as local wall-clock records,
Python sequences as Lean lists, and the brokerage connection as explicit
inputs (snapshots of positions, open orders and executions).  File writes
(CSV logs, the persisted JSON state) are modelled by returning the rows
that would be appended and the new state value.
-/

/-- Python float truncation int(x): floor for nonnegative, ceiling for negative. -/
def pyInt (q : ℚ) : Int :=
  if 0 ≤ q then Int.floor q else Int.ceil q

/-- Round-half-to-even on a rational, the tie rule of Python round(). -/
def roundHalfEven (q : ℚ) : Int :=
  let f := Int.floor q
  let r := q - (f : ℚ)
  if r < 1/2 then f
  else if 1/2 < r then f + 1
  else if f % 2 = 0 then f else f + 1

/-- Python round(x, ndigits) modelled on rationals with the half-even tie rule. -/
def pyRound (q : ℚ) (ndigits : Nat) : ℚ :=
  ((roundHalfEven (q * (10 : ℚ) ^ ndigits) : ℚ)) / (10 : ℚ) ^ ndigits

/-- Python list indexing l[i] with negative-index support; none models IndexError. -/
def pyIdx {α : Type} (l : List α) (i : Int) : Option α :=
  if 0 ≤ i then l.get? i.toNat
  else if i.natAbs ≤ l.length then l.get? (l.length - i.natAbs) else none

/-- A wall-clock instant in some local time zone: Python weekday() convention
(0 = Monday .. 6 = Sunday) plus time of day. -/
structure LocalTime where
  weekday : Nat
  hour : Nat
  minute : Nat
  second : Nat
  microsecond : Nat
deriving DecidableEq

/-- Time of day in microseconds, the quantity compared by Python datetime
comparison between two datetimes of the same day and zone. -/
def LocalTime.timeOfDay (t : LocalTime) : Nat :=
  ((t.hour * 60 + t.minute) * 60 + t.second) * 1000000 + t.microsecond

/-- An ib_insync order as the sources populate it (MarketOrder / LimitOrder /
StopOrder): default field values are the library defaults the sources rely on
(transmit = true, parentId = 0, empty ocaGroup, ocaType = 0). -/
structure Order where
  action : String
  totalQuantity : Int
  orderType : String
  lmtPrice : Option ℚ := none
  auxPrice : Option ℚ := none
  transmit : Bool := true
  parentId : Nat := 0
  ocaGroup : String := ""
  ocaType : Nat := 0
deriving DecidableEq

namespace paper_trader

/-- Config constant ACCOUNT_EQUITY_DKK = 5000.0 from paper_trader.py. -/
def ACCOUNT_EQUITY_DKK : ℚ := 5000

/-- Config constant RISK_PER_TRADE_PCT = 0.01 from paper_trader.py. -/
def RISK_PER_TRADE_PCT : ℚ := 1/100

/-- Config constant STOP_LOSS_PCT = 0.007 from paper_trader.py. -/
def STOP_LOSS_PCT : ℚ := 7/1000

/-- Config constant TAKE_PROFIT_PCT = 0.012 from paper_trader.py. -/
def TAKE_PROFIT_PCT : ℚ := 12/1000

/-- Config constant MAX_TRADES_PER_DAY = 2 from paper_trader.py. -/
def MAX_TRADES_PER_DAY : Nat := 2

/-- The open_position dict stored in bot_state.json: symbol, qty, entry_price,
entry_time (ISO string, modelled by its parse result: an integer UTC timestamp,
none when unparsable), order_id. -/
structure OpenPosition where
  symbol : String
  qty : Int
  entry_price : ℚ
  entry_time : Option Int
  order_id : Nat
deriving DecidableEq

/-- The persisted state dict of paper_trader.py: date (UTC calendar-day string),
trades_today, open_position, last_close_time (parse result of the ISO string). -/
structure TradeState where
  date : String
  trades_today : Nat
  open_position : Option OpenPosition
  last_close_time : Option Int
deriving DecidableEq

/-- reset_state_if_new_day from paper_trader.py: if the stored date differs from
today (UTC), reset trades_today to 0 and advance the date; write_state is the
persistence side effect, modelled by returning the new state. -/
def reset_state_if_new_day (today : String) (state : TradeState) : TradeState :=
  if state.date ≠ today then { state with date := today, trades_today := 0 } else state

/-- calc_qty from paper_trader.py: fixed-fraction risk sizing,
floor(equity * riskPct / (price * stopLossPct)), clamped below by 0, and 0
when the per-share risk is nonpositive. -/
def calc_qty (price : ℚ) : Int :=
  let risk_amt := ACCOUNT_EQUITY_DKK * RISK_PER_TRADE_PCT
  let risk_per_share := price * STOP_LOSS_PCT
  if risk_per_share ≤ 0 then 0
  else max 0 (Int.floor (risk_amt / risk_per_share))

/-- The result of place_bracket from paper_trader.py: the three orders in
submission sequence together with the returned prices and parent order id.
The broker-assigned parent order id is an input (it is produced by the first
placeOrder call, outside the core). -/
structure BracketResult where
  submitted : List Order
  tp_price : ℚ
  sl_price : ℚ
  parent_id : Nat
deriving DecidableEq

/-- place_bracket from paper_trader.py: parent market BUY with transmit = False,
take-profit SELL limit at round(entry*(1+TP%), 2) with transmit = False, stop
SELL at round(entry*(1-SL%), 2) with transmit = True; both children get
parentId and the shared OCA group "OCA_<parent_id>" with ocaType 1; submission
sequence is parent, take_profit, stop_loss. -/
def place_bracket (qty : Int) (entry_ref_price : ℚ) (parent_id : Nat) : BracketResult :=
  let tp_price := pyRound (entry_ref_price * (1 + TAKE_PROFIT_PCT)) 2
  let sl_price := pyRound (entry_ref_price * (1 - STOP_LOSS_PCT)) 2
  let oca_group := "OCA_" ++ toString parent_id
  let parent : Order :=
    { action := "BUY", totalQuantity := qty, orderType := "MKT", transmit := false }
  let take_profit : Order :=
    { action := "SELL", totalQuantity := qty, orderType := "LMT", lmtPrice := some tp_price,
      parentId := parent_id, transmit := false, ocaGroup := oca_group, ocaType := 1 }
  let stop_loss : Order :=
    { action := "SELL", totalQuantity := qty, orderType := "STP", auxPrice := some sl_price,
      parentId := parent_id, transmit := true, ocaGroup := oca_group, ocaType := 1 }
  { submitted := [parent, take_profit, stop_loss], tp_price := tp_price,
    sl_price := sl_price, parent_id := parent_id }

/-- One broker execution record as check_and_log_close reads it: side,
contract symbol, parse_ib_time of the execution time (none when unparsable),
and the fill price. -/
structure Execution where
  side : String
  symbol : String
  time : Option Int
  price : ℚ
deriving DecidableEq

/-- One appended row of trade_close_log.csv (timestamps as parsed instants).
The pnl field carries round(pnl, 4) exactly as append_csv writes it. -/
structure CloseRow where
  timestamp_utc : Int
  symbol : String
  qty : Int
  entry_price : ℚ
  exit_price : ℚ
  pnl : ℚ
  exit_time_utc : Int
deriving DecidableEq

/-- One appended row of trade_log.csv. -/
structure EntryRow where
  timestamp_utc : Int
  symbol : String
  qty : Int
  entry_price : ℚ
  entry_price_source : String
  tp_price : ℚ
  sl_price : ℚ
  order_id : Nat
deriving DecidableEq

/-- The Python pattern "opt and et <= opt" inverted: true when the optional
lower bound is absent or strictly below t (the execution filter of
check_and_log_close skips an execution unless this holds for both the entry
time and the last_close_time watermark). -/
def strictlyAfter (t : Int) : Option Int → Bool
  | none => true
  | some w => decide (w < t)

/-- One iteration of the best-execution selection loop of check_and_log_close:
skip non-SLD sides, other symbols, unparsable times, and times not strictly
after the entry time and the watermark; otherwise keep the execution if it is
strictly later than the best so far (first one wins on ties). -/
def closeStep (symbol : String) (entry_time last_close_time : Option Int)
    (acc : Option (Execution × Int)) (e : Execution) : Option (Execution × Int) :=
  if e.side = "SLD" then
    if e.symbol = symbol then
      match e.time with
      | none => acc
      | some et =>
        if strictlyAfter et entry_time then
          if strictlyAfter et last_close_time then
            match acc with
            | none => some (e, et)
            | some (best, best_time) =>
              if best_time < et then some (e, et) else some (best, best_time)
          else acc
        else acc
    else acc
  else acc

/-- The best/best_time loop of check_and_log_close over the executions list. -/
def findBestClose (symbol : String) (entry_time last_close_time : Option Int)
    (execs : List Execution) : Option (Execution × Int) :=
  execs.foldl (closeStep symbol entry_time last_close_time) none

/-- The filter of the selection loop as a predicate on one execution: a sell
fill on the tracked symbol with a parsable time strictly after the entry time
and the last_close_time watermark. -/
def qualifiesClose (symbol : String) (entry_time last_close_time : Option Int)
    (e : Execution) : Bool :=
  decide (e.side = "SLD") && decide (e.symbol = symbol) &&
    (match e.time with
     | none => false
     | some et => strictlyAfter et entry_time && strictlyAfter et last_close_time)

/-- A candidate best execution paired with its parsed time: it passes the
selection filter and the paired time is its own parsed time. -/
def goodClose (symbol : String) (entry_time last_close_time : Option Int)
    (p : Execution × Int) : Prop :=
  qualifiesClose symbol entry_time last_close_time p.1 = true ∧ p.1.time = some p.2

/-- check_and_log_close from paper_trader.py.  The broker snapshots
ib.positions() and ib.openOrders() enter as emptiness flags, ib.executions()
as a list, utc_now as the row timestamp; the CSV append is modelled by the
returned row list.  If no open position is tracked, no-op; if the broker still
reports positions or open orders, no-op; otherwise the latest qualifying sell
execution (if any) produces one close row with pnl = (exit - entry) * qty and
advances the watermark, and without one the position is cleared silently. -/
def check_and_log_close (hasPositions hasOpenOrders : Bool) (execs : List Execution)
    (now : Int) (state : TradeState) : TradeState × List CloseRow :=
  match state.open_position with
  | none => (state, [])
  | some open_pos =>
    if hasPositions || hasOpenOrders then (state, [])
    else
      match findBestClose open_pos.symbol open_pos.entry_time state.last_close_time execs with
      | none => ({ state with open_position := none }, [])
      | some (best, best_time) =>
        let exit_price := best.price
        let pnl := (exit_price - open_pos.entry_price) * (open_pos.qty : ℚ)
        ({ state with open_position := none, last_close_time := some best_time },
         [{ timestamp_utc := now, symbol := open_pos.symbol, qty := open_pos.qty,
            entry_price := open_pos.entry_price, exit_price := exit_price,
            pnl := pyRound pnl 4, exit_time_utc := best_time }])

/-- What one iteration of the scan loop in main does to the trade state after
the signal and snapshot price are known (paper_trader.py lines 337-389): skip
the symbol on no signal, missing price, or nonpositive quantity; otherwise the
bracket is placed and, if the parent shows no fills after the bounded wait,
the function returns without touching state or the entry log; with a fill the
entry row is appended and the open position and daily counter are recorded. -/
inductive LoopOutcome
  | next
  | stop
  | placed
deriving DecidableEq

/-- The per-symbol tail of the scan loop in main: signal/price gate, sizing,
bracket placement, fill check, state update.  fills carries the prices of
parent_trade.fills after the 1.5 s wait; parent_id is the broker-assigned id. -/
def main_after_signal (sym : String) (signal : Bool) (price : Option ℚ)
    (parent_id : Nat) (fills : List ℚ) (now : Int) (state : TradeState) :
    TradeState × List EntryRow × LoopOutcome :=
  if signal = false ∨ price = none then (state, [], LoopOutcome.next)
  else
    match price with
    | none => (state, [], LoopOutcome.next)
    | some p =>
      let qty := calc_qty p
      if qty ≤ 0 then (state, [], LoopOutcome.next)
      else
        let br := place_bracket qty p parent_id
        match fills.getLast? with
        | none => (state, [], LoopOutcome.stop)
        | some entry_price =>
          ({ state with
              open_position := some
                { symbol := sym, qty := qty, entry_price := entry_price,
                  entry_time := some now, order_id := parent_id },
              trades_today := state.trades_today + 1 },
           [{ timestamp_utc := now, symbol := sym, qty := qty, entry_price := entry_price,
              entry_price_source := "fill", tp_price := br.tp_price, sl_price := br.sl_price,
              order_id := parent_id }],
           LoopOutcome.placed)

end paper_trader

namespace paper_trader_loop

/-- Config constant CAPITAL_PER_TRADE_USD = 2000 from paper_trader_loop.py. -/
def CAPITAL_PER_TRADE_USD : ℚ := 2000

/-- Config constant MIN_SCORE = 0.65 from paper_trader_loop.py. -/
def MIN_SCORE : ℚ := 13/20

/-- Config constant MIN_PRICE = 5 from paper_trader_loop.py. -/
def MIN_PRICE : ℚ := 5

/-- Config constant MAX_PRICE = 2000 from paper_trader_loop.py. -/
def MAX_PRICE : ℚ := 2000

/-- Config constant MIN_ATR_PCT = 0.002 from paper_trader_loop.py. -/
def MIN_ATR_PCT : ℚ := 1/500

/-- Config constant MAX_ATR_PCT = 0.08 from paper_trader_loop.py. -/
def MAX_ATR_PCT : ℚ := 2/25

/-- Config constant STOP_LOSS_ATR = 1.0 from paper_trader_loop.py. -/
def STOP_LOSS_ATR : ℚ := 1

/-- Config constant TAKE_PROFIT_ATR = 1.5 from paper_trader_loop.py. -/
def TAKE_PROFIT_ATR : ℚ := 3/2

/-- One OHLCV bar as returned by the external historical-data fetch. -/
structure Bar where
  high : ℚ
  low : ℚ
  close : ℚ
  volume : ℚ
deriving DecidableEq

/-- sma from paper_trader_loop.py: mean of the last n values, none when fewer
than n values exist (Python slicing vals[-n:] cannot raise). -/
def sma (vals : List ℚ) (n : Nat) : Option ℚ :=
  if vals.length < n then none
  else some ((vals.drop (vals.length - n)).sum / (n : ℚ))

/-- The index sequence range(-n, 0) = [-n, ..., -1] of the rsi and atr loops. -/
def negRange : Nat → List Int
  | 0 => []
  | m + 1 => -((m : Int) + 1) :: negRange m

/-- The gains/losses accumulation loop of rsi: for each index i, the close
delta closes[i] - closes[i-1] is added to gains when nonnegative, else its
negation to losses.  A none result models an IndexError on either access. -/
def gainLossAux (closes : List ℚ) (gains losses : ℚ) : List Int → Option (ℚ × ℚ)
  | [] => some (gains, losses)
  | i :: rest =>
    match pyIdx closes i, pyIdx closes (i - 1) with
    | some c, some cprev =>
      let ch := c - cprev
      if 0 ≤ ch then gainLossAux closes (gains + ch) losses rest
      else gainLossAux closes gains (losses + (-ch)) rest
    | _, _ => none

/-- rsi from paper_trader_loop.py.  The outer Option models an IndexError
(never reached, see the bounds theorem), the inner one the explicit guard:
fewer than n+1 closes gives none; a zero average loss saturates at 100. -/
def rsi (closes : List ℚ) (n : Nat) : Option (Option ℚ) :=
  if closes.length < n + 1 then some none
  else
    match gainLossAux closes 0 0 (negRange n) with
    | none => none
    | some (gains, losses) =>
      if losses = 0 then some (some 100)
      else
        let rs := (gains / (n : ℚ)) / (losses / (n : ℚ))
        some (some (100 - 100 / (1 + rs)))

/-- The true range of the bar at (negative) index i against the previous close:
max(high - low, |high - prevClose|, |low - prevClose|); none on IndexError. -/
def trAt (bars : List Bar) (i : Int) : Option ℚ :=
  match pyIdx bars i, pyIdx bars (i - 1) with
  | some b, some bprev =>
    some (max (b.high - b.low) (max |b.high - bprev.close| |b.low - bprev.close|))
  | _, _ => none

/-- The true-range collection loop of atr; none models an IndexError. -/
def trsAux (bars : List Bar) : List Int → Option (List ℚ)
  | [] => some []
  | i :: rest =>
    match trAt bars i, trsAux bars rest with
    | some tr, some trs => some (tr :: trs)
    | _, _ => none

/-- atr from paper_trader_loop.py: mean true range of the last n bars, with
the explicit fewer-than-n+1-bars guard returning the inner none. -/
def atr (bars : List Bar) (n : Nat) : Option (Option ℚ) :=
  if bars.length < n + 1 then some none
  else
    match trsAux bars (negRange n) with
    | none => none
    | some trs => some (some (trs.sum / (n : ℚ)))

/-- The oscillator sub-score block of score_symbol (paper_trader_loop.py lines
232-239): three pieces split at 40 and 70 followed by the clamp to [0,1]. -/
def rsi_score_of (r : ℚ) : ℚ :=
  let rsi_score :=
    if r < 40 then (r / 40) * (4/10)
    else if 40 ≤ r ∧ r ≤ 70 then 1 - |r - 60| / 20
    else max 0 (1 - (r - 70) / 30)
  max 0 (min 1 rsi_score)

/-- score_symbol from paper_trader_loop.py, with the bar fetch supplied as
input.  Every gate mirrors the source: fewer than 60 bars, price band, atr
availability and sign, atr-percent band, sma availability, rsi availability,
then the weighted composite clamped to [0,1].  The outer none models an
IndexError inside an indicator (never reached, see the bounds theorem). -/
def score_symbol (bars : List Bar) : Option (ℚ × String × Option ℚ × Option ℚ) :=
  if bars.length < 60 then some (0, "not_enough_bars", none, none)
  else
    let closes := bars.map Bar.close
    match pyIdx closes (-1) with
    | none => none
    | some price =>
      if price < MIN_PRICE ∨ MAX_PRICE < price then
        some (0, "price_out_of_range", some price, none)
      else
        match atr bars 14 with
        | none => none
        | some none => some (0, "atr_missing", some price, none)
        | some (some a) =>
          if a ≤ 0 then some (0, "atr_missing", some price, none)
          else
            let atr_pct := a / price
            if atr_pct < MIN_ATR_PCT ∨ MAX_ATR_PCT < atr_pct then
              some (0, "atr_pct_out_of_range", some price, some a)
            else
              match sma closes 10, sma closes 30 with
              | some s10, some s30 =>
                let mom : ℚ := if s30 < s10 then 1 else 0
                (match rsi closes 14 with
                 | none => none
                 | some none => some (0, "rsi_missing", some price, some a)
                 | some (some r) =>
                   let rsc := rsi_score_of r
                   let target : ℚ := 15/1000
                   let vol_score := 1 - min 1 (|atr_pct - target| / target)
                   let score := (35/100) * mom + (35/100) * rsc + (30/100) * vol_score
                   some (max 0 (min 1 score), "ok", some price, some a))
              | _, _ => some (0, "sma_missing", some price, some a)

/-- position_size from paper_trader_loop.py: max(1, int(capital / price)). -/
def position_size (price : ℚ) : Int :=
  max 1 (pyInt (CAPITAL_PER_TRADE_USD / price))

/-- place_bracket from paper_trader_loop.py: ATR-based child prices, rejection
when the stop price is nonpositive, parent/tp non-transmitting and stop
transmitting, children linked by parentId only (no OCA fields are assigned, so
they keep the library defaults).  The returned list is the submission
sequence; none models the early False return. -/
def place_bracket (qty : Int) (entry_price atr_val : ℚ) (parent_id : Nat) :
    Option (List Order) :=
  let tp := pyRound (entry_price + TAKE_PROFIT_ATR * atr_val) 2
  let sl := pyRound (entry_price - STOP_LOSS_ATR * atr_val) 2
  if sl ≤ 0 then none
  else
    let parent : Order :=
      { action := "BUY", totalQuantity := qty, orderType := "MKT", transmit := false }
    let tp_order : Order :=
      { action := "SELL", totalQuantity := qty, orderType := "LMT", lmtPrice := some tp,
        transmit := false, parentId := parent_id }
    let sl_order : Order :=
      { action := "SELL", totalQuantity := qty, orderType := "STP", auxPrice := some sl,
        transmit := true, parentId := parent_id }
    some [parent, tp_order, sl_order]

/-- us_open from paper_trader_loop.py, on the current New York wall clock:
closed on weekday() >= 5, else open within [09:30, 16:00). -/
def us_open (t : LocalTime) : Bool :=
  if 5 ≤ t.weekday then false
  else
    decide (((9 * 60 + 30) * 60) * 1000000 ≤ t.timeOfDay) &&
      decide (t.timeOfDay < ((16 * 60) * 60) * 1000000)

/-- eu_open from paper_trader_loop.py, on the current Copenhagen wall clock:
closed on weekday() >= 5, else open within [09:00, 17:30). -/
def eu_open (t : LocalTime) : Bool :=
  if 5 ≤ t.weekday then false
  else
    decide (((9 * 60) * 60) * 1000000 ≤ t.timeOfDay) &&
      decide (t.timeOfDay < ((17 * 60 + 30) * 60) * 1000000)

end paper_trader_loop

namespace paper_trader_us

/-- Config constant CAPITAL_PER_TRADE = 50000 from paper_trader_us.py. -/
def CAPITAL_PER_TRADE : ℚ := 50000

/-- position_size from paper_trader_us.py: max(1, int(capital / price)). -/
def position_size (price : ℚ) : Int :=
  max 1 (pyInt (CAPITAL_PER_TRADE / price))

/-- The fixed UTC-5 shift now.astimezone(timezone(timedelta(hours=-5))) of
us_market_open, on the wall-clock model: subtract five hours, borrowing a day
(and hence moving weekday back by one, modulo the week) when needed. -/
def toEst (utc : LocalTime) : LocalTime :=
  if 5 ≤ utc.hour then { utc with hour := utc.hour - 5 }
  else { utc with hour := utc.hour + 19, weekday := (utc.weekday + 6) % 7 }

/-- us_market_open from paper_trader_us.py: 9 <= est.hour < 16, with no
weekday condition of any kind. -/
def us_market_open (utc : LocalTime) : Bool :=
  let est := toEst utc
  decide (9 ≤ est.hour) && decide (est.hour < 16)

end paper_trader_us

/-- Pointwise continuity on the rationals, stated with epsilon and delta. -/
def ContinAt (f : ℚ → ℚ) (a : ℚ) : Prop :=
  ∀ ε : ℚ, 0 < ε → ∃ δ : ℚ, 0 < δ ∧ ∀ x : ℚ, |x - a| < δ → |f x - f a| < ε

/-- The left-sided limit of f at a is L, stated with epsilon and delta. -/
def LeftLim (f : ℚ → ℚ) (a L : ℚ) : Prop :=
  ∀ ε : ℚ, 0 < ε → ∃ δ : ℚ, 0 < δ ∧ ∀ x : ℚ, a - δ < x → x < a → |f x - L| < ε

/-- The right-sided limit of f at a is L, stated with epsilon and delta. -/
def RightLim (f : ℚ → ℚ) (a L : ℚ) : Prop :=
  ∀ ε : ℚ, 0 < ε → ∃ δ : ℚ, 0 < δ ∧ ∀ x : ℚ, a < x → x < a + δ → |f x - L| < ε

/-- Rounding an integer changes nothing. -/
theorem roundHalfEven_int (n : ℤ) : roundHalfEven (n : ℚ) = n := by
  unfold roundHalfEven
  rw [Int.floor_intCast]
  norm_num

/-- Python round(n, d) on an integer value changes nothing. -/
theorem pyRound_intCast (n : ℤ) (d : Nat) : pyRound (n : ℚ) d = n := by
  unfold pyRound
  have h : ((n : ℚ) * (10:ℚ)^d) = ((n * 10^d : ℤ) : ℚ) := by push_cast; ring
  rw [h, roundHalfEven_int]
  have h10 : ((10:ℚ)^d) ≠ 0 := by positivity
  push_cast
  field_simp

/-- Below the lower boundary the oscillator sub-score is the linear piece
x/100 (for 0 ≤ x < 40, where the clamp does not bind). -/
theorem rsi_score_of_left (x : ℚ) (h0 : 0 ≤ x) (h40 : x < 40) :
    paper_trader_loop.rsi_score_of x = x / 100 := by
  simp only [paper_trader_loop.rsi_score_of, if_pos h40]
  have e : (x / 40) * (4/10) = x / 100 := by ring
  rw [e, min_eq_right (by linarith : x / 100 ≤ 1), max_eq_right (by linarith : (0:ℚ) ≤ x / 100)]

/-- Just above the upper boundary the oscillator sub-score is the linear piece
1 - (x - 70)/30 (for 70 < x ≤ 71, where neither max nor the clamp binds). -/
theorem rsi_score_of_right (x : ℚ) (h70 : 70 < x) (h71 : x ≤ 71) :
    paper_trader_loop.rsi_score_of x = 1 - (x - 70) / 30 := by
  simp only [paper_trader_loop.rsi_score_of, if_neg (by intro h; linarith : ¬ x < 40),
    if_neg (by rintro ⟨-, h⟩; linarith : ¬ (40 ≤ x ∧ x ≤ 70))]
  rw [max_eq_right (by linarith : (0:ℚ) ≤ 1 - (x - 70) / 30)]
  rw [min_eq_right (by linarith : 1 - (x - 70) / 30 ≤ 1),
    max_eq_right (by linarith : (0:ℚ) ≤ 1 - (x - 70) / 30)]

/-- The oscillator sub-score at exactly 40 is 0 (value of the middle piece). -/
theorem rsi_score_of_at_40 : paper_trader_loop.rsi_score_of 40 = 0 := by
  unfold paper_trader_loop.rsi_score_of
  norm_num

/-- The oscillator sub-score at exactly 70 is 1/2 (value of the middle piece). -/
theorem rsi_score_of_at_70 : paper_trader_loop.rsi_score_of 70 = 1/2 := by
  unfold paper_trader_loop.rsi_score_of
  norm_num

/-- Counterexample to claim C2: the oscillator sub-score is not continuous at
both piecewise boundaries; in fact already at r = 40 the value is 0 while
every left neighbourhood contains points with sub-score near 0.4. -/
theorem C2_counterexample :
    ¬ (ContinAt paper_trader_loop.rsi_score_of 40 ∧
       ContinAt paper_trader_loop.rsi_score_of 70) := by
  rintro ⟨h40, -⟩
  obtain ⟨δ, hδ, h⟩ := h40 (1/10) (by norm_num)
  have hd0 : 0 < min δ 1 := lt_min hδ one_pos
  have hd1 : min δ 1 ≤ 1 := min_le_right δ 1
  have hdδ : min δ 1 ≤ δ := min_le_left δ 1
  have hx := h (40 - min δ 1 / 2) ?_
  · rw [rsi_score_of_at_40,
      rsi_score_of_left (40 - min δ 1 / 2) (by linarith) (by linarith)] at hx
    rw [sub_zero, abs_of_nonneg (by linarith : (0:ℚ) ≤ (40 - min δ 1 / 2) / 100)] at hx
    linarith
  · have e : (40 - min δ 1 / 2 - 40 : ℚ) = -(min δ 1 / 2) := by ring
    rw [e, abs_neg, abs_of_pos (by linarith)]
    linarith

/-- Claim C2 amended: the oscillator sub-score is discontinuous at both
piecewise boundaries.  At r = 40 the left limit is 0.4 but the value is 0; at
r = 70 the right limit is 1 but the value is 1/2. -/
theorem C2_amended_boundary_jumps :
    LeftLim paper_trader_loop.rsi_score_of 40 (2/5) ∧
    paper_trader_loop.rsi_score_of 40 = 0 ∧
    RightLim paper_trader_loop.rsi_score_of 70 1 ∧
    paper_trader_loop.rsi_score_of 70 = 1/2 := by
  refine ⟨?_, rsi_score_of_at_40, ?_, rsi_score_of_at_70⟩
  · intro ε hε
    refine ⟨min (100 * ε) 1, lt_min (by positivity) one_pos, ?_⟩
    intro x hx1 hx2
    have hd1 : min (100 * ε) 1 ≤ 1 := min_le_right _ _
    have hdε : min (100 * ε) 1 ≤ 100 * ε := min_le_left _ _
    rw [rsi_score_of_left x (by linarith) hx2]
    have e : x / 100 - 2/5 = -((40 - x) / 100) := by ring
    rw [e, abs_neg, abs_of_nonneg (by linarith)]
    linarith
  · intro ε hε
    refine ⟨min (30 * ε) 1, lt_min (by positivity) one_pos, ?_⟩
    intro x hx1 hx2
    have hd1 : min (30 * ε) 1 ≤ 1 := min_le_right _ _
    have hdε : min (30 * ε) 1 ≤ 30 * ε := min_le_left _ _
    rw [rsi_score_of_right x hx1 (by linarith)]
    have e : 1 - (x - 70) / 30 - 1 = -((x - 70) / 30) := by ring
    rw [e, abs_neg, abs_of_nonneg (by linarith)]
    linarith

/-- Witness instantiating the amended C2 statement: the left limit clause at
40 applied at epsilon = 1/2. -/
theorem C2_amended_witness :
    ∃ δ : ℚ, 0 < δ ∧ ∀ x : ℚ, 40 - δ < x → x < 40 →
      |paper_trader_loop.rsi_score_of x - 2/5| < 1/2 :=
  C2_amended_boundary_jumps.1 (1/2) (by norm_num)

/-- Counterexample to claim C3: on a Saturday instant (UTC weekday 5, 15:00,
which is Saturday 10:00 in the fixed UTC-5 zone the gate uses) the simplified
session gate us_market_open of paper_trader_us.py reports the market open. -/
theorem C3_counterexample :
    (paper_trader_us.toEst ⟨5, 15, 0, 0, 0⟩).weekday = 5 ∧
    paper_trader_us.us_market_open ⟨5, 15, 0, 0, 0⟩ = true := by
  constructor <;> rfl

/-- Claim C3 amended: the session gates of the decision loop, us_open and
eu_open, return closed for every instant whose local weekday is Saturday or
Sunday, at every hour; the separate simplified gate us_market_open of the
US-only loop checks only the UTC-5 hour and does report open on weekends. -/
theorem C3_amended_weekend_gates (t : LocalTime) (h : 5 ≤ t.weekday) :
    paper_trader_loop.us_open t = false ∧ paper_trader_loop.eu_open t = false := by
  unfold paper_trader_loop.us_open paper_trader_loop.eu_open
  rw [if_pos h, if_pos h]
  exact ⟨rfl, rfl⟩

/-- Witness for the amended C3 statement on a concrete Sunday noon. -/
theorem C3_witness :
    paper_trader_loop.us_open ⟨6, 12, 0, 0, 0⟩ = false ∧
    paper_trader_loop.eu_open ⟨6, 12, 0, 0, 0⟩ = false :=
  C3_amended_weekend_gates ⟨6, 12, 0, 0, 0⟩ (by decide)

/-- Counterexample to claim C4: the bracket constructor of
paper_trader_loop.py (one of the two cited constructions) leaves both child
orders with the empty default OCA group instead of one keyed by the parent
order id. -/
theorem C4_counterexample :
    (paper_trader_loop.place_bracket 1 100 1 7).map (fun l => l.map Order.ocaGroup) =
      some ["", "", ""] ∧
    ("" : String) ≠ "OCA_" ++ toString 7 := by
  constructor
  · unfold paper_trader_loop.place_bracket
    have hsl : pyRound (100 - paper_trader_loop.STOP_LOSS_ATR * 1) 2 = ((99 : ℤ) : ℚ) := by
      have e : (100 - paper_trader_loop.STOP_LOSS_ATR * 1 : ℚ) = ((99 : ℤ) : ℚ) := by
        norm_num [paper_trader_loop.STOP_LOSS_ATR]
      rw [e, pyRound_intCast]
    simp only [hsl]
    rw [if_neg (by norm_num)]
    rfl
  · decide

/-- Claim C4 amended: in paper_trader.py the bracket is submitted as parent
market order (transmit withheld), take-profit limit child (transmit withheld),
stop child (transmit set), both children carrying the parent id and sharing
the OCA group "OCA_<parent id>" with ocaType 1; in paper_trader_loop.py the
same transmit flags, submission sequence and parentId linkage hold, but no OCA
group is assigned (both children keep the empty default). -/
theorem C4_amended_bracket_structure (qty : Int) (price aval : ℚ) (pid : Nat) :
    (paper_trader.place_bracket qty price pid).submitted.map
        (fun o => (o.action, o.orderType, o.transmit, o.parentId, o.ocaGroup, o.ocaType)) =
      [("BUY", "MKT", false, 0, "", 0),
       ("SELL", "LMT", false, pid, "OCA_" ++ toString pid, 1),
       ("SELL", "STP", true, pid, "OCA_" ++ toString pid, 1)] ∧
    (paper_trader_loop.place_bracket qty price aval pid = none ∨
      (paper_trader_loop.place_bracket qty price aval pid).map
          (fun l => l.map (fun o => (o.action, o.orderType, o.transmit, o.parentId, o.ocaGroup))) =
        some [("BUY", "MKT", false, 0, ""),
              ("SELL", "LMT", false, pid, ""),
              ("SELL", "STP", true, pid, "")]) := by
  constructor
  · rfl
  · unfold paper_trader_loop.place_bracket
    by_cases h : pyRound (price - paper_trader_loop.STOP_LOSS_ATR * aval) 2 ≤ 0
    · left
      simp only [h, if_true]
    · right
      simp only [h, if_false]
      rfl

/-- Counterexample to claim C5: at price 3000 (above the 2000 per-trade
capital) the fixed-notional sizer of the decision loop returns 1, not the
claimed floor(2000/3000) = 0; likewise the US-loop sizer at price 60000. -/
theorem C5_counterexample :
    paper_trader_loop.position_size 3000 = 1 ∧
    Int.floor (paper_trader_loop.CAPITAL_PER_TRADE_USD / 3000) = 0 ∧
    paper_trader_us.position_size 60000 = 1 ∧
    Int.floor (paper_trader_us.CAPITAL_PER_TRADE / 60000) = 0 := by
  have h1 : Int.floor ((2000 : ℚ) / 3000) = 0 := by
    rw [Int.floor_eq_iff] <;> norm_num
  have h2 : Int.floor ((50000 : ℚ) / 60000) = 0 := by
    rw [Int.floor_eq_iff] <;> norm_num
  refine ⟨?_, ?_, ?_, ?_⟩
  · simp only [paper_trader_loop.position_size, paper_trader_loop.CAPITAL_PER_TRADE_USD, pyInt]
    rw [if_pos (by norm_num), h1]
    exact max_eq_left zero_le_one
  · simpa only [paper_trader_loop.CAPITAL_PER_TRADE_USD] using h1
  · simp only [paper_trader_us.position_size, paper_trader_us.CAPITAL_PER_TRADE, pyInt]
    rw [if_pos (by norm_num), h2]
    exact max_eq_left zero_le_one
  · simpa only [paper_trader_us.CAPITAL_PER_TRADE] using h2

/-- Claim C5 amended: in fixed-notional mode both sizers return
max(1, floor(capital/price)) for positive prices: exactly
floor(capital/price) whenever price ≤ capital, but 1 — never 0 — when the
price exceeds the per-trade capital, so an unaffordable symbol is still sized
at one share instead of being skipped. -/
theorem C5_amended_position_size (price : ℚ) (hp : 0 < price) :
    (price ≤ 2000 →
      paper_trader_loop.position_size price = Int.floor (2000 / price)) ∧
    (2000 < price → paper_trader_loop.position_size price = 1) ∧
    (price ≤ 50000 →
      paper_trader_us.position_size price = Int.floor (50000 / price)) ∧
    (50000 < price → paper_trader_us.position_size price = 1) := by
  have key : ∀ cap : ℚ, 0 < cap →
      (price ≤ cap → max 1 (pyInt (cap / price)) = Int.floor (cap / price)) ∧
      (cap < price → max 1 (pyInt (cap / price)) = 1) := by
    intro cap hcap
    have hnn : (0 : ℚ) ≤ cap / price := le_of_lt (div_pos hcap hp)
    have hpy : pyInt (cap / price) = Int.floor (cap / price) := by
      unfold pyInt
      rw [if_pos hnn]
    constructor
    · intro hle
      have h1 : (1 : ℚ) ≤ cap / price := (one_le_div hp).mpr hle
      have hfl : (1 : ℤ) ≤ Int.floor (cap / price) := by
        rw [Int.le_floor]; exact_mod_cast h1
      rw [hpy, max_eq_right hfl]
    · intro hlt
      have h1 : cap / price < 1 := (div_lt_one hp).mpr hlt
      have hfl : Int.floor (cap / price) = 0 := by
        rw [Int.floor_eq_iff] <;> norm_num [hnn, h1]
      rw [hpy, hfl]
      exact max_eq_left zero_le_one
  obtain ⟨k1, k2⟩ := key 2000 (by norm_num)
  obtain ⟨k3, k4⟩ := key 50000 (by norm_num)
  exact ⟨fun h => k1 h, fun h => k2 h, fun h => k3 h, fun h => k4 h⟩

/-- Witness for the amended C5 statement: at price 3 the loop sizer returns
floor(2000/3), and at price 60000 the US sizer returns 1. -/
theorem C5_witness :
    paper_trader_loop.position_size 3 = Int.floor ((2000 : ℚ) / 3) ∧
    paper_trader_us.position_size 60000 = 1 :=
  ⟨(C5_amended_position_size 3 (by norm_num)).1 (by norm_num),
   (C5_amended_position_size 60000 (by norm_num)).2.2.2 (by norm_num)⟩

/-- Claim C7: when the parent trade shows no fills after the bounded wait, the
engine returns without recording an open position: the state is unchanged and
no entry-log row is produced. -/
theorem C7_no_fill_no_state_update (sym : String) (p : ℚ) (pid : Nat) (now : Int)
    (state : paper_trader.TradeState) (hq : 0 < paper_trader.calc_qty p) :
    paper_trader.main_after_signal sym true (some p) pid [] now state =
      (state, [], paper_trader.LoopOutcome.stop) := by
  unfold paper_trader.main_after_signal
  rw [if_neg (by simp)]
  simp only [List.getLast?]
  rw [if_neg (by omega)]

/-- Witness for C7: no fill at price 50 (a positive computed quantity) leaves
a concrete state untouched and appends nothing. -/
theorem C7_witness :
    paper_trader.main_after_signal "AAPL" true (some 50) 1 [] 0
        ⟨"2026-10-12", 0, none, none⟩ =
      (⟨"2026-10-12", 0, none, none⟩, [], paper_trader.LoopOutcome.stop) :=
  C7_no_fill_no_state_update "AAPL" 50 1 0 ⟨"2026-10-12", 0, none, none⟩ (by
    simp only [paper_trader.calc_qty, paper_trader.ACCOUNT_EQUITY_DKK,
      paper_trader.RISK_PER_TRADE_PCT, paper_trader.STOP_LOSS_PCT]
    rw [if_neg (by norm_num)]
    exact lt_max_of_lt_right (Int.floor_pos.mpr (by norm_num)))

/-- A claim-C6 check: calc_qty at price 100 with the configured constants gives
floor(50 / 0.7) = 71. -/
theorem C6_calc_qty_example : paper_trader.calc_qty 100 = 71 := by
  simp only [paper_trader.calc_qty, paper_trader.ACCOUNT_EQUITY_DKK,
    paper_trader.RISK_PER_TRADE_PCT, paper_trader.STOP_LOSS_PCT]
  norm_num [Int.floor_eq_iff]

/-- Claim C9: loading a persisted TradeState whose stored date differs from the
current UTC date yields trades_today = 0 and date = today, and applying the
reset again on the same day changes nothing. -/
theorem C9_day_rollover_reset (s : paper_trader.TradeState) (today : String)
    (h : s.date ≠ today) :
    (paper_trader.reset_state_if_new_day today s).trades_today = 0 ∧
    (paper_trader.reset_state_if_new_day today s).date = today ∧
    paper_trader.reset_state_if_new_day today (paper_trader.reset_state_if_new_day today s) =
      paper_trader.reset_state_if_new_day today s := by
  unfold paper_trader.reset_state_if_new_day
  simp [h]

/-- Witness for C9 at a concrete stale state. -/
theorem C9_witness :
    (paper_trader.reset_state_if_new_day "2026-10-12"
      ⟨"2026-10-11", 2, none, none⟩).trades_today = 0 ∧
    (paper_trader.reset_state_if_new_day "2026-10-12"
      ⟨"2026-10-11", 2, none, none⟩).date = "2026-10-12" ∧
    paper_trader.reset_state_if_new_day "2026-10-12"
      (paper_trader.reset_state_if_new_day "2026-10-12" ⟨"2026-10-11", 2, none, none⟩) =
      paper_trader.reset_state_if_new_day "2026-10-12" ⟨"2026-10-11", 2, none, none⟩ :=
  C9_day_rollover_reset ⟨"2026-10-11", 2, none, none⟩ "2026-10-12" (by decide)

/-- Claim C10: the day-rollover reset touches only date and trades_today:
open_position and last_close_time are unchanged in both branches. -/
theorem C10_reset_frame (s : paper_trader.TradeState) (today : String) :
    (paper_trader.reset_state_if_new_day today s).open_position = s.open_position ∧
    (paper_trader.reset_state_if_new_day today s).last_close_time = s.last_close_time := by
  unfold paper_trader.reset_state_if_new_day
  by_cases h : s.date = today <;> simp [h]

/-- A negative Python index within range always yields an element. -/
theorem pyIdx_isSome_of_neg {α : Type} (l : List α) (i : Int)
    (hneg : i < 0) (hlen : i.natAbs ≤ l.length) : ∃ a, pyIdx l i = some a := by
  unfold pyIdx
  rw [if_neg (not_le.mpr hneg), if_pos hlen]
  have hlt : l.length - i.natAbs < l.length := by omega
  exact ⟨l.get ⟨l.length - i.natAbs, hlt⟩, List.get?_eq_get hlt⟩

/-- The true-range computation never raises an index error for an in-range
negative index with one predecessor available. -/
theorem trAt_isSome (bars : List paper_trader_loop.Bar) (i : Int)
    (hneg : i < 0) (hlen : i.natAbs + 1 ≤ bars.length) :
    ∃ q, paper_trader_loop.trAt bars i = some q := by
  obtain ⟨b, hb⟩ := pyIdx_isSome_of_neg bars i hneg (by omega)
  obtain ⟨c, hc⟩ := pyIdx_isSome_of_neg bars (i - 1) (by omega) (by omega)
  exact ⟨_, by unfold paper_trader_loop.trAt; rw [hb, hc]⟩

/-- The true-range collection loop never raises an index error when every
index is negative and in range with a predecessor. -/
theorem trsAux_isSome (bars : List paper_trader_loop.Bar) (idxs : List Int)
    (h : ∀ i ∈ idxs, i < 0 ∧ i.natAbs + 1 ≤ bars.length) :
    ∃ trs, paper_trader_loop.trsAux bars idxs = some trs := by
  induction idxs with
  | nil => exact ⟨[], rfl⟩
  | cons i rest ih =>
    obtain ⟨h1, h2⟩ := h i (List.mem_cons_self i rest)
    obtain ⟨tr, htr⟩ := trAt_isSome bars i h1 h2
    obtain ⟨trs, htrs⟩ := ih (fun j hj => h j (List.mem_cons_of_mem i hj))
    refine ⟨tr :: trs, ?_⟩
    simp only [paper_trader_loop.trsAux]
    rw [htr, htrs]

/-- Every index produced by range(-n, 0) is negative with magnitude at most n. -/
theorem negRange_bounds (n : Nat) :
    ∀ i ∈ paper_trader_loop.negRange n, i < 0 ∧ i.natAbs ≤ n := by
  induction n with
  | zero => intro i hi; cases hi
  | succ m ih =>
    intro i hi
    rcases List.mem_cons.mp hi with h | h
    · subst h
      constructor <;> omega
    · obtain ⟨h1, h2⟩ := ih i h
      exact ⟨h1, by omega⟩

/-- atr never raises an index error: the explicit length guard covers every
access of its loop (bars[i] and bars[i-1] for i in range(-14, 0)). -/
theorem atr_ne_none (bars : List paper_trader_loop.Bar) :
    paper_trader_loop.atr bars 14 ≠ none := by
  unfold paper_trader_loop.atr
  by_cases h : bars.length < 14 + 1
  · rw [if_pos h]
    simp
  · rw [if_neg h]
    obtain ⟨trs, htrs⟩ := trsAux_isSome bars (paper_trader_loop.negRange 14)
      (fun i hi => ⟨(negRange_bounds 14 i hi).1, by
        have := (negRange_bounds 14 i hi).2
        omega⟩)
    rw [htrs]
    simp

/-- The gains/losses loop of rsi never raises an index error when every index
is negative and in range with a predecessor. -/
theorem gainLossAux_isSome (closes : List ℚ) (idxs : List Int)
    (h : ∀ i ∈ idxs, i < 0 ∧ i.natAbs + 1 ≤ closes.length) :
    ∀ gains losses, ∃ gl, paper_trader_loop.gainLossAux closes gains losses idxs = some gl := by
  induction idxs with
  | nil => exact fun g l => ⟨(g, l), rfl⟩
  | cons i rest ih =>
    intro g l
    obtain ⟨h1, h2⟩ := h i (List.mem_cons_self i rest)
    obtain ⟨c, hc⟩ := pyIdx_isSome_of_neg closes i h1 (by omega)
    obtain ⟨cp, hcp⟩ := pyIdx_isSome_of_neg closes (i - 1) (by omega) (by omega)
    have ih2 := ih fun j hj => h j (List.mem_cons_of_mem i hj)
    simp only [paper_trader_loop.gainLossAux, hc, hcp]
    by_cases hch : 0 ≤ c - cp
    · rw [if_pos hch]
      exact ih2 (g + (c - cp)) l
    · rw [if_neg hch]
      exact ih2 g (l + -(c - cp))

/-- rsi never raises an index error: the explicit length guard covers every
access of its loop (closes[i] and closes[i-1] for i in range(-14, 0)). -/
theorem rsi_ne_none (closes : List ℚ) : paper_trader_loop.rsi closes 14 ≠ none := by
  unfold paper_trader_loop.rsi
  by_cases h : closes.length < 14 + 1
  · rw [if_pos h]
    simp
  · rw [if_neg h]
    obtain ⟨gl, hgl⟩ := gainLossAux_isSome closes (paper_trader_loop.negRange 14)
      (fun i hi => ⟨(negRange_bounds 14 i hi).1, by
        have := (negRange_bounds 14 i hi).2
        omega⟩) 0 0
    rw [hgl]
    obtain ⟨g, l⟩ := gl
    by_cases hl : l = 0
    · simp [hl]
    · simp [hl]

/-- score_symbol never raises an index error on any bar series. -/
theorem score_symbol_ne_none (bars : List paper_trader_loop.Bar) :
    paper_trader_loop.score_symbol bars ≠ none := by
  simp only [paper_trader_loop.score_symbol]
  by_cases h60 : bars.length < 60
  · rw [if_pos h60]
    simp
  · rw [if_neg h60]
    obtain ⟨price, hp⟩ := pyIdx_isSome_of_neg (bars.map paper_trader_loop.Bar.close) (-1)
      (by norm_num) (by rw [List.length_map]; omega)
    simp only [hp]
    by_cases hband : price < paper_trader_loop.MIN_PRICE ∨ paper_trader_loop.MAX_PRICE < price
    · rw [if_pos hband]
      simp
    · rw [if_neg hband]
      rcases hatr : paper_trader_loop.atr bars 14 with _ | (_ | a)
      · exact absurd hatr (atr_ne_none bars)
      · simp only [hatr]
        simp
      simp only [hatr]
      by_cases ha : a ≤ 0
      · rw [if_pos ha]
        simp
      rw [if_neg ha]
      by_cases hpct : a / price < paper_trader_loop.MIN_ATR_PCT ∨
          paper_trader_loop.MAX_ATR_PCT < a / price
      · rw [if_pos hpct]
        simp
      rw [if_neg hpct]
      rcases hs10 : paper_trader_loop.sma (bars.map paper_trader_loop.Bar.close) 10 with _ | s10
      · rcases hs30 : paper_trader_loop.sma (bars.map paper_trader_loop.Bar.close) 30 with _ | s30 <;>
          simp [hs10, hs30]
      rcases hs30 : paper_trader_loop.sma (bars.map paper_trader_loop.Bar.close) 30 with _ | s30
      · simp [hs10, hs30]
      simp only [hs10, hs30]
      rcases hrsi : paper_trader_loop.rsi (bars.map paper_trader_loop.Bar.close) 14 with _ | (_ | r)
      · exact absurd hrsi (rsi_ne_none (bars.map paper_trader_loop.Bar.close))
      · simp only [hrsi]
        simp
      simp only [hrsi]
      simp

/-- Claim C8: a bar series shorter than the fixed minimum of 60 bars scores 0
with the short-circuit reason (the tag the spec names insufficient_history is
the string "not_enough_bars" in the source), and no evaluation of the scorer
or of its sub-metrics on any series raises an out-of-range index access (a
none result of the outer Option models an IndexError). -/
theorem C8_insufficient_history_and_bounds :
    (∀ bars : List paper_trader_loop.Bar, bars.length < 60 →
      paper_trader_loop.score_symbol bars = some (0, "not_enough_bars", none, none)) ∧
    (∀ bars : List paper_trader_loop.Bar, paper_trader_loop.score_symbol bars ≠ none) ∧
    (∀ bars : List paper_trader_loop.Bar, paper_trader_loop.atr bars 14 ≠ none) ∧
    (∀ closes : List ℚ, paper_trader_loop.rsi closes 14 ≠ none) := by
  refine ⟨?_, score_symbol_ne_none, atr_ne_none, rsi_ne_none⟩
  intro bars h
  simp only [paper_trader_loop.score_symbol]
  rw [if_pos h]

/-- Witness for C8 on the empty bar series. -/
theorem C8_witness :
    paper_trader_loop.score_symbol [] = some (0, "not_enough_bars", none, none) ∧
    paper_trader_loop.score_symbol [] ≠ none ∧
    paper_trader_loop.atr [] 14 ≠ none ∧
    paper_trader_loop.rsi [] 14 ≠ none :=
  ⟨C8_insufficient_history_and_bounds.1 [] (by simp),
   C8_insufficient_history_and_bounds.2.1 [],
   C8_insufficient_history_and_bounds.2.2.1 [],
   C8_insufficient_history_and_bounds.2.2.2 []⟩

/-- Destructing a passed selection filter into its component conditions. -/
theorem qualifiesClose_elim (sym : String) (et lc : Option Int)
    (e : paper_trader.Execution) (h : paper_trader.qualifiesClose sym et lc e = true) :
    e.side = "SLD" ∧ e.symbol = sym ∧ ∃ t, e.time = some t ∧
      paper_trader.strictlyAfter t et = true ∧ paper_trader.strictlyAfter t lc = true := by
  unfold paper_trader.qualifiesClose at h
  rcases htime : e.time with _ | t
  · rw [htime] at h
    simp at h
  · rw [htime] at h
    simp only [Bool.and_eq_true, decide_eq_true_eq] at h
    exact ⟨h.1.1, h.1.2, t, rfl, h.2.1, h.2.2⟩

/-- Assembling the selection filter from its component conditions. -/
theorem qualifiesClose_intro (sym : String) (et lc : Option Int)
    (e : paper_trader.Execution) (t : Int)
    (h1 : e.side = "SLD") (h2 : e.symbol = sym) (ht : e.time = some t)
    (h3 : paper_trader.strictlyAfter t et = true)
    (h4 : paper_trader.strictlyAfter t lc = true) :
    paper_trader.qualifiesClose sym et lc e = true := by
  unfold paper_trader.qualifiesClose
  rw [ht]
  simp [h1, h2, h3, h4]

/-- A selection step never discards an already-held best candidate. -/
theorem closeStep_some_ne_none (sym : String) (et lc : Option Int)
    (p : paper_trader.Execution × Int) (e : paper_trader.Execution) :
    paper_trader.closeStep sym et lc (some p) e ≠ none := by
  unfold paper_trader.closeStep
  repeat' split
  all_goals simp

/-- If a selection step returns nothing, it started with nothing. -/
theorem closeStep_eq_none (sym : String) (et lc : Option Int)
    (acc : Option (paper_trader.Execution × Int)) (e : paper_trader.Execution)
    (h : paper_trader.closeStep sym et lc acc e = none) : acc = none := by
  rcases acc with _ | p
  · rfl
  · exact absurd h (closeStep_some_ne_none sym et lc p e)

/-- A selection step fed a qualifying execution returns a candidate. -/
theorem closeStep_ne_none_of_qualifies (sym : String) (et lc : Option Int)
    (acc : Option (paper_trader.Execution × Int)) (e : paper_trader.Execution)
    (hq : paper_trader.qualifiesClose sym et lc e = true) :
    paper_trader.closeStep sym et lc acc e ≠ none := by
  rcases acc with _ | p
  · obtain ⟨h1, h2, t, ht, h3, h4⟩ := qualifiesClose_elim sym et lc e hq
    unfold paper_trader.closeStep
    rw [if_pos h1, if_pos h2]
    simp only [ht]
    rw [if_pos h3, if_pos h4]
    simp
  · exact closeStep_some_ne_none sym et lc p e

/-- Whatever a selection step returns passes the filter with its own time (or
was the inherited candidate, already known good). -/
theorem closeStep_good (sym : String) (et lc : Option Int)
    (acc : Option (paper_trader.Execution × Int)) (e : paper_trader.Execution)
    (hacc : ∀ p, acc = some p → paper_trader.goodClose sym et lc p) :
    ∀ q, paper_trader.closeStep sym et lc acc e = some q →
      paper_trader.goodClose sym et lc q := by
  intro q hq
  unfold paper_trader.closeStep at hq
  by_cases h1 : e.side = "SLD"
  case neg => rw [if_neg h1] at hq; exact hacc q hq
  rw [if_pos h1] at hq
  by_cases h2 : e.symbol = sym
  case neg => rw [if_neg h2] at hq; exact hacc q hq
  rw [if_pos h2] at hq
  rcases htime : e.time with _ | t
  · rw [htime] at hq
    exact hacc q hq
  simp only [htime] at hq
  by_cases h3 : paper_trader.strictlyAfter t et = true
  case neg => rw [if_neg h3] at hq; exact hacc q hq
  rw [if_pos h3] at hq
  by_cases h4 : paper_trader.strictlyAfter t lc = true
  case neg => rw [if_neg h4] at hq; exact hacc q hq
  rw [if_pos h4] at hq
  have hgoode : paper_trader.goodClose sym et lc (e, t) :=
    ⟨qualifiesClose_intro sym et lc e t h1 h2 htime h3 h4, htime⟩
  rcases acc with _ | ⟨b, bt⟩
  · simp at hq
    subst hq
    exact hgoode
  · by_cases h5 : bt < t
    · simp [h5] at hq
      subst hq
      exact hgoode
    · simp [h5] at hq
      subst hq
      exact hacc (b, bt) rfl

/-- A selection step never lowers the held best time. -/
theorem closeStep_mono (sym : String) (et lc : Option Int)
    (acc : Option (paper_trader.Execution × Int)) (e : paper_trader.Execution)
    (b : paper_trader.Execution) (bt : Int) (hacc : acc = some (b, bt)) :
    ∃ q, paper_trader.closeStep sym et lc acc e = some q ∧ bt ≤ q.2 := by
  subst hacc
  unfold paper_trader.closeStep
  by_cases h1 : e.side = "SLD"
  case neg => rw [if_neg h1]; exact ⟨(b, bt), rfl, le_refl bt⟩
  rw [if_pos h1]
  by_cases h2 : e.symbol = sym
  case neg => rw [if_neg h2]; exact ⟨(b, bt), rfl, le_refl bt⟩
  rw [if_pos h2]
  rcases htime : e.time with _ | t
  · simp only [htime]
    exact ⟨(b, bt), rfl, le_refl bt⟩
  simp only [htime]
  by_cases h3 : paper_trader.strictlyAfter t et = true
  case neg => rw [if_neg h3]; exact ⟨(b, bt), rfl, le_refl bt⟩
  rw [if_pos h3]
  by_cases h4 : paper_trader.strictlyAfter t lc = true
  case neg => rw [if_neg h4]; exact ⟨(b, bt), rfl, le_refl bt⟩
  rw [if_pos h4]
  by_cases h5 : bt < t
  · exact ⟨(e, t), by simp [h5], le_of_lt h5⟩
  · exact ⟨(b, bt), by simp [h5], le_refl bt⟩

/-- A selection step fed a qualifying execution returns a candidate at least
as late as that execution. -/
theorem closeStep_dominates (sym : String) (et lc : Option Int)
    (acc : Option (paper_trader.Execution × Int)) (e : paper_trader.Execution)
    (hq : paper_trader.qualifiesClose sym et lc e = true) (t : Int) (ht : e.time = some t) :
    ∀ q, paper_trader.closeStep sym et lc acc e = some q → t ≤ q.2 := by
  obtain ⟨h1, h2, u, hu, h3, h4⟩ := qualifiesClose_elim sym et lc e hq
  rw [ht] at hu
  injection hu with huu
  subst huu
  intro q hqe
  rcases acc with _ | ⟨b, bt⟩
  · unfold paper_trader.closeStep at hqe
    rw [if_pos h1, if_pos h2] at hqe
    simp only [ht] at hqe
    rw [if_pos h3, if_pos h4] at hqe
    simp at hqe
    subst hqe
    exact le_refl t
  · unfold paper_trader.closeStep at hqe
    rw [if_pos h1, if_pos h2] at hqe
    simp only [ht] at hqe
    rw [if_pos h3, if_pos h4] at hqe
    by_cases h5 : bt < t
    · simp [h5] at hqe
      subst hqe
      exact le_refl t
    · simp [h5] at hqe
      subst hqe
      exact le_of_not_lt h5

/-- Folding the selection step keeps a nonempty accumulator nonempty. -/
theorem foldl_closeStep_ne_none_of_acc (sym : String) (et lc : Option Int)
    (l : List paper_trader.Execution) :
    ∀ acc, acc ≠ none → l.foldl (paper_trader.closeStep sym et lc) acc ≠ none := by
  induction l with
  | nil => intro acc h; simpa using h
  | cons e rest ih =>
    intro acc h
    rw [List.foldl_cons]
    refine ih _ (fun hnone => h (closeStep_eq_none sym et lc acc e hnone))

/-- Folding the selection step over a list containing a qualifying execution
always finds some candidate. -/
theorem foldl_closeStep_ne_none (sym : String) (et lc : Option Int)
    (l : List paper_trader.Execution) (e : paper_trader.Execution)
    (he : e ∈ l) (hq : paper_trader.qualifiesClose sym et lc e = true) :
    ∀ acc, l.foldl (paper_trader.closeStep sym et lc) acc ≠ none := by
  induction l with
  | nil => cases he
  | cons a rest ih =>
    intro acc
    rw [List.foldl_cons]
    rcases List.mem_cons.mp he with h | h
    · subst h
      exact foldl_closeStep_ne_none_of_acc sym et lc rest _
        (closeStep_ne_none_of_qualifies sym et lc acc e hq)
    · exact ih h (paper_trader.closeStep sym et lc acc a)

/-- Whatever the fold returns passes the filter with its own time, provided
the initial accumulator did. -/
theorem foldl_closeStep_good (sym : String) (et lc : Option Int)
    (l : List paper_trader.Execution) :
    ∀ acc, (∀ p, acc = some p → paper_trader.goodClose sym et lc p) →
      ∀ p, l.foldl (paper_trader.closeStep sym et lc) acc = some p →
        paper_trader.goodClose sym et lc p := by
  induction l with
  | nil => intro acc hacc p hp; exact hacc p hp
  | cons e rest ih =>
    intro acc hacc p hp
    rw [List.foldl_cons] at hp
    exact ih _ (closeStep_good sym et lc acc e hacc) p hp

/-- The fold result dominates both the initial accumulator time and the time
of every qualifying execution in the list. -/
theorem foldl_closeStep_max (sym : String) (et lc : Option Int)
    (l : List paper_trader.Execution) :
    ∀ acc p, l.foldl (paper_trader.closeStep sym et lc) acc = some p →
      (∀ b bt, acc = some (b, bt) → bt ≤ p.2) ∧
      (∀ e ∈ l, paper_trader.qualifiesClose sym et lc e = true →
        ∀ t, e.time = some t → t ≤ p.2) := by
  induction l with
  | nil =>
    intro acc p hp
    rw [List.foldl_nil] at hp
    refine ⟨?_, by intro e he; cases he⟩
    intro b bt hacc
    rw [hacc] at hp
    injection hp with h
    rw [← h]
  | cons e rest ih =>
    intro acc p hp
    rw [List.foldl_cons] at hp
    obtain ⟨ihacc, ihrest⟩ := ih (paper_trader.closeStep sym et lc acc e) p hp
    constructor
    · intro b bt hacc
      obtain ⟨q, hq1, hq2⟩ := closeStep_mono sym et lc acc e b bt hacc
      have h3 : q.2 ≤ p.2 := by
        rcases q with ⟨qe, qt⟩
        exact ihacc qe qt hq1
      exact le_trans hq2 h3
    · intro f hf hqf t htf
      rcases List.mem_cons.mp hf with h | h
      · subst h
        rcases hstep : paper_trader.closeStep sym et lc acc f with _ | q
        · exact absurd hstep (closeStep_ne_none_of_qualifies sym et lc acc f hqf)
        have h1 : t ≤ q.2 := closeStep_dominates sym et lc acc f hqf t htf q hstep
        have h2 : q.2 ≤ p.2 := by
          rcases q with ⟨qe, qt⟩
          exact ihacc qe qt hstep
        exact le_trans h1 h2
      · exact ihrest f h hqf t htf

/-- The best-close search returns a qualifying execution paired with its own
(parsed) time, and that time is the latest among all qualifying executions. -/
theorem findBestClose_spec (sym : String) (et lc : Option Int)
    (execs : List paper_trader.Execution)
    (hq : ∃ e ∈ execs, paper_trader.qualifiesClose sym et lc e = true) :
    ∃ best t1, paper_trader.findBestClose sym et lc execs = some (best, t1) ∧
      paper_trader.qualifiesClose sym et lc best = true ∧
      best.time = some t1 ∧
      (∀ e ∈ execs, paper_trader.qualifiesClose sym et lc e = true →
        ∀ t, e.time = some t → t ≤ t1) := by
  obtain ⟨e, he, hqe⟩ := hq
  rcases hbest : paper_trader.findBestClose sym et lc execs with _ | ⟨best, t1⟩
  · exact absurd hbest (foldl_closeStep_ne_none sym et lc execs e he hqe none)
  have hgood := foldl_closeStep_good sym et lc execs none
    (by intro p hp; cases hp) (best, t1) hbest
  have hmax := (foldl_closeStep_max sym et lc execs none (best, t1) hbest).2
  exact ⟨best, t1, rfl, hgood.1, hgood.2, hmax⟩

/-- Claim C1: with an open position tracked, the broker reporting no open
positions and no open orders, and the executions containing a qualifying sell
fill (on the tracked symbol, strictly after both the entry time and the
last_close_time watermark), one reconciliation call clears open_position,
advances last_close_time to the most recent qualifying fill time t1, and
appends exactly one close-log row whose P/L is (exit - entry) * qty (stored
rounded to 4 decimals by the CSV writer); a second call on the resulting
state with the same executions changes nothing. -/
theorem C1_reconciliation_once_and_idempotent
    (execs : List paper_trader.Execution) (pos : paper_trader.OpenPosition)
    (st : paper_trader.TradeState) (now now2 : Int)
    (hop : st.open_position = some pos)
    (hq : ∃ e ∈ execs,
      paper_trader.qualifiesClose pos.symbol pos.entry_time st.last_close_time e = true) :
    ∃ best t1,
      paper_trader.findBestClose pos.symbol pos.entry_time st.last_close_time execs =
        some (best, t1) ∧
      paper_trader.qualifiesClose pos.symbol pos.entry_time st.last_close_time best = true ∧
      best.time = some t1 ∧
      (∀ e ∈ execs,
        paper_trader.qualifiesClose pos.symbol pos.entry_time st.last_close_time e = true →
        ∀ t, e.time = some t → t ≤ t1) ∧
      paper_trader.check_and_log_close false false execs now st =
        ({ st with open_position := none, last_close_time := some t1 },
         [{ timestamp_utc := now, symbol := pos.symbol, qty := pos.qty,
            entry_price := pos.entry_price, exit_price := best.price,
            pnl := pyRound ((best.price - pos.entry_price) * (pos.qty : ℚ)) 4,
            exit_time_utc := t1 }]) ∧
      paper_trader.check_and_log_close false false execs now2
          { st with open_position := none, last_close_time := some t1 } =
        ({ st with open_position := none, last_close_time := some t1 }, []) := by
  obtain ⟨best, t1, hbest, hqb, htb, hmax⟩ :=
    findBestClose_spec pos.symbol pos.entry_time st.last_close_time execs hq
  refine ⟨best, t1, hbest, hqb, htb, hmax, ?_, ?_⟩
  · unfold paper_trader.check_and_log_close
    simp only [hop, hbest]
    rfl
  · rfl

/-- Witness for C1: a tracked AAPL position of 10 shares entered at 100 at
time 0, one sell execution at price 110 and time 5, watermark absent. -/
theorem C1_witness :
    ∃ best t1,
      paper_trader.findBestClose "AAPL" (some 0) none
          [⟨"SLD", "AAPL", some 5, 110⟩] = some (best, t1) ∧
      paper_trader.qualifiesClose "AAPL" (some 0) none best = true ∧
      best.time = some t1 ∧
      (∀ e ∈ ([⟨"SLD", "AAPL", some 5, 110⟩] : List paper_trader.Execution),
        paper_trader.qualifiesClose "AAPL" (some 0) none e = true →
        ∀ t, e.time = some t → t ≤ t1) ∧
      paper_trader.check_and_log_close false false [⟨"SLD", "AAPL", some 5, 110⟩] 6
          ⟨"2026-10-12", 1, some ⟨"AAPL", 10, 100, some 0, 1⟩, none⟩ =
        (⟨"2026-10-12", 1, none, some t1⟩,
         [⟨6, "AAPL", 10, 100, best.price,
           pyRound ((best.price - 100) * ((10 : Int) : ℚ)) 4, t1⟩]) ∧
      paper_trader.check_and_log_close false false [⟨"SLD", "AAPL", some 5, 110⟩] 7
          ⟨"2026-10-12", 1, none, some t1⟩ =
        (⟨"2026-10-12", 1, none, some t1⟩, []) :=
  C1_reconciliation_once_and_idempotent
    [⟨"SLD", "AAPL", some 5, 110⟩]
    ⟨"AAPL", 10, 100, some 0, 1⟩
    ⟨"2026-10-12", 1, some ⟨"AAPL", 10, 100, some 0, 1⟩, none⟩
    6 7 rfl
    ⟨⟨"SLD", "AAPL", some 5, 110⟩, by simp, rfl⟩
